import Mathlib

/-!
Shallow embedding of the orchestration core of `src/bot.py`:
phone normalization, conversation-state transitions, the flood/backoff
controller, the reaction-glyph ledger, entity resolution, and the
cancellable sequential batch executor. Strings of user input are modelled
as `List Char`; wall-clock times and delays as `ℚ`; the nondeterminism of
`random.choice` as an index argument; remote-call success as boolean
oracles passed in as parameters.
-/

namespace Bot

/-- Python `str.strip()`: drop whitespace from both ends (` bot.py` line 179). -/
def pyStrip (cs : List Char) : List Char :=
  ((cs.dropWhile Char.isWhitespace).reverse.dropWhile Char.isWhitespace).reverse

/-- Embedding of `normalize_phone` (`bot.py` lines 178-182): strip the input;
if it starts with a plus sign, keep the plus and the digits of the rest,
otherwise prepend a plus to the digits of the whole. -/
def normalize_phone (phone : List Char) : List Char :=
  let p := pyStrip phone
  if p.head? = some '+' then '+' :: (p.tail.filter Char.isDigit)
  else '+' :: p.filter Char.isDigit

/-- The regex `^\+\d{7,15}$` used by `receive_phone` (`bot.py` line 950)
and `receive_remove_phone` (line 567). -/
def validPhoneFormat (p : List Char) : Bool :=
  match p with
  | '+' :: ds => decide (7 ≤ ds.length) && decide (ds.length ≤ 15) && ds.all Char.isDigit
  | _ => false

/-- The `flood_wait_until` dict (`bot.py` line 86): account phone to wait-until
timestamp (event-loop seconds, modelled as rationals). -/
def FloodClock : Type := List Char → Option ℚ

/-- Embedding of the rate-limit registration performed at every
`FloodWaitError` handler (`bot.py` lines 811, 1003, 1054, 1344, 1399, 1477):
`flood_wait_until[phone] = asyncio.get_event_loop().time() + e.seconds`,
a plain overwrite of the entry for `phone`. -/
def registerRateLimited (fw : FloodClock) (phone : List Char) (now seconds : ℚ) : FloodClock :=
  fun p => if p = phone then some (now + seconds) else fw p

/-- Modelled from the spec: `registerRateLimited(id, seconds)` sets wait-until
to max(current, now+seconds). Stated only to compare with the source
behaviour `registerRateLimited` above. -/
def registerRateLimitedSpec (fw : FloodClock) (phone : List Char) (now seconds : ℚ) : FloodClock :=
  fun p =>
    if p = phone then
      match fw p with
      | some cur => some (max cur (now + seconds))
      | none => some (now + seconds)
    else fw p

/-- Embedding of `respect_flood_limit` (`bot.py` lines 210-217), returning the
event-loop time at which the routine resumes its caller: if the account has a
registered wait-until later than `now`, sleep exactly until it; then sleep the
per-action-kind `delay` when it is positive. -/
def respect_flood_limit (fw : FloodClock) (phone : List Char) (now delay : ℚ) : ℚ :=
  let afterWait : ℚ :=
    match fw phone with
    | some wait_until => if now < wait_until then now + (wait_until - now) else now
    | none => now
  if 0 < delay then afterWait + delay else afterWait

/-- A per-operator conversation state, one entry of `user_states`
(`bot.py` line 92): the pending command, the current step name
(the `state` key), the collected account count and the in-flight phone. -/
structure ConvState where
  command : String
  step : String
  count : Option Nat
  phone : Option (List Char)
deriving DecidableEq

/-- Result of one `receive_phone` message turn (`bot.py` lines 940-1020),
with the network part of the flow abstracted by the `netOk` oracle. -/
inductive PhoneStepResult where
  | noSession
  | invalidFormat
  | duplicate
  | accepted
  | otpSendFailed
deriving DecidableEq

/-- Embedding of `receive_phone` (`bot.py` lines 940-1020) as a transition on
the operator's conversation state and the `user_clients` registry (keys only):
guard that a `phone`-step state exists; normalize and validate the number;
reject duplicates; otherwise attempt the OTP send (`netOk` abstracts
`ensure_connected` plus `send_code_request`), moving to the `otp` step on
success and dropping the state on failure. -/
def receive_phone (st : Option ConvState) (clients : List (List Char))
    (text : List Char) (netOk : Bool) :
    PhoneStepResult × Option ConvState × List (List Char) :=
  match st with
  | none => (.noSession, none, clients)
  | some s =>
    if s.step = "phone" then
      let phone := normalize_phone text
      if validPhoneFormat phone = false then (.invalidFormat, some s, clients)
      else if phone ∈ clients then (.duplicate, none, clients)
      else if netOk then
        (.accepted, some { s with step := "otp", phone := some phone }, clients)
      else (.otpSendFailed, none, clients)
    else (.noSession, some s, clients)

/-- Embedding of `start_count_link_command` (`bot.py` lines 424-436): the
non-mega commands first collect a count in the `counting` step. -/
def start_count_link_command (command : String) : ConvState :=
  { command := command, step := "counting", count := none, phone := none }

/-- Embedding of `start_link_only_command` (`bot.py` lines 438-449): the mega
commands skip count collection, select the full pool (`count = len(user_clients)`)
and go straight to the link-collection step. -/
def start_link_only_command (command : String) (poolSize : Nat) : ConvState :=
  { command := command,
    step := if command = "mega_join" ∨ command = "mega_leave"
            then "invite_link" else "message_link",
    count := some poolSize, phone := none }

/-- The unused-glyph computation of `process_react` (`bot.py` line 850):
`[e for e in EMOJIS if e not in reaction_history[link][phone]]`. -/
def unused_emojis (emojis : List String) (used : Finset String) : List String :=
  emojis.filter (fun e => decide (e ∉ used))

/-- The glyph pick of `process_react` (`bot.py` lines 850-858): if every glyph
of the alphabet has been used, clear the used-set and pick from the full
alphabet, else pick from the unused ones. `random.choice` is modelled by the
index `idx` reduced modulo the choice-list length. Returns the picked glyph
and the (possibly cleared) used-set. -/
def pick_emoji (emojis : List String) (used : Finset String) (idx : Nat) :
    String × Finset String :=
  let unused := unused_emojis emojis used
  if unused.isEmpty then (emojis.getD (idx % emojis.length) "", (∅ : Finset String))
  else (unused.getD (idx % unused.length) "", used)

/-- One reaction attempt for one account in `process_react`
(`bot.py` lines 846-870): pick a glyph, and commit it to the used-set exactly
when the reaction succeeded (`ok`). -/
def react_step (emojis : List String) (used : Finset String) (idx : Nat) (ok : Bool) :
    String × Finset String :=
  let pr := pick_emoji emojis used idx
  if ok then (pr.1, insert pr.1 pr.2) else pr

/-- One per-account entry of the streamed batch report: a success reply, a
failure reply, or the cancellation reply. -/
inductive Outcome where
  | ok (phone : List Char)
  | fail (phone : List Char)
  | cancelled
deriving DecidableEq

/-- The shared account loop of `process_join` / `process_leave` /
`process_view` (`bot.py` lines 759-780, 792-824, 890-914): at each iteration
boundary `i` consult the operator's cancellation event; if set, emit the
cancellation outcome and stop, leaving the rest unprocessed; otherwise attempt
the account's remote action (`attempt`) and emit a success or failure outcome.
Returns the outcome stream and the unprocessed remainder. -/
def runBatchAux (attempt : List Char → Bool) (cancel : Nat → Bool) :
    Nat → List (List Char) → List Outcome × List (List Char)
  | _, [] => ([], [])
  | i, phone :: rest =>
    if cancel i then ([Outcome.cancelled], phone :: rest)
    else
      let r := runBatchAux attempt cancel (i + 1) rest
      ((if attempt phone then Outcome.ok phone else Outcome.fail phone) :: r.1, r.2)

/-- The selection `list(user_clients.items())[:count]` (`bot.py` lines 754,
787, 832, 885): the first `count` registry entries in insertion order. -/
def selectAccounts (registry : List (List Char)) (count : Nat) : List (List Char) :=
  registry.take count

/-- Embedding of `process_join` (`bot.py` lines 750-780): run the shared batch
loop over the first `count` accounts, `join_ok` abstracting `join_channel`. -/
def process_join (join_ok : List Char → Bool) (cancel : Nat → Bool)
    (registry : List (List Char)) (count : Nat) : List Outcome × List (List Char) :=
  runBatchAux join_ok cancel 0 (selectAccounts registry count)

/-- Embedding of `process_view` (`bot.py` lines 881-916): run the shared batch
loop over the first `count` accounts; `view_ok` abstracts `send_view`, with an
exception inside the per-account `try` counted as a failure outcome. -/
def process_view (view_ok : List Char → Bool) (cancel : Nat → Bool)
    (registry : List (List Char)) (count : Nat) : List Outcome × List (List Char) :=
  runBatchAux view_ok cancel 0 (selectAccounts registry count)

/-- The account loop of `process_react` (`bot.py` lines 840-879) for one target
link, threading that link's slice of `reaction_history` (phone to used-set):
check cancellation at each boundary; pick a glyph for the account from its
unused set via `pick_emoji`; attempt the reaction (`send_ok`); commit the glyph
on success (`react_step`); emit the per-account outcome. -/
def process_react_aux (send_ok : List Char → String → Bool)
    (pickIdx : List Char → Nat) (emojis : List String) (cancel : Nat → Bool) :
    Nat → List (List Char) → (List Char → Finset String) →
      List Outcome × List (List Char) × (List Char → Finset String)
  | _, [], hist => ([], [], hist)
  | i, phone :: rest, hist =>
    if cancel i then ([Outcome.cancelled], phone :: rest, hist)
    else
      let pr := pick_emoji emojis (hist phone) (pickIdx phone)
      let ok := send_ok phone pr.1
      let hist1 := fun p =>
        if p = phone then (react_step emojis (hist phone) (pickIdx phone) ok).2 else hist p
      let r := process_react_aux send_ok pickIdx emojis cancel (i + 1) rest hist1
      ((if ok then Outcome.ok phone else Outcome.fail phone) :: r.1, r.2.1, r.2.2)

/-- Embedding of `process_react` (`bot.py` lines 828-879): the react batch
loop over the first `count` accounts. -/
def process_react (send_ok : List Char → String → Bool)
    (pickIdx : List Char → Nat) (emojis : List String) (cancel : Nat → Bool)
    (registry : List (List Char)) (count : Nat) (hist : List Char → Finset String) :
    List Outcome × List (List Char) × (List Char → Finset String) :=
  process_react_aux send_ok pickIdx emojis cancel 0 (selectAccounts registry count) hist

/-- Entity resolution in `send_reaction` (`bot.py` lines 1363-1374): a
`-100…` identifier is resolved directly by id; otherwise the bare name is
tried first and the `@`-prefixed form is the `ValueError` fallback. The
`resolves` oracle says which identifiers `client.get_entity` accepts. -/
def resolve_reaction_entity (resolves : List Char → Bool) (cid : List Char) :
    Option (List Char) :=
  if ("-100".toList).isPrefixOf cid then
    if resolves cid then some cid else none
  else if resolves cid then some cid
  else if resolves ('@' :: cid) then some ('@' :: cid) else none

/-- Entity resolution in `send_view` (`bot.py` lines 1458-1464): a `-100…`
identifier is resolved directly by id; otherwise a single resolution of
`f"@{chat_identifier}" if not chat_identifier.startswith('@') else
chat_identifier` is attempted, with no bare-name-first step. -/
def resolve_view_entity (resolves : List Char → Bool) (cid : List Char) :
    Option (List Char) :=
  if ("-100".toList).isPrefixOf cid then
    if resolves cid then some cid else none
  else
    let name := if ("@".toList).isPrefixOf cid then cid else '@' :: cid
    if resolves name then some name else none

/-- Entity resolution for public joins in `join_channel` (`bot.py` lines
1320-1330): the channel username from the link is tried bare first, with the
`@`-prefixed form as the `ValueError` fallback. -/
def resolve_join_entity (resolves : List Char → Bool) (username : List Char) :
    Option (List Char) :=
  if resolves username then some username
  else if resolves ('@' :: username) then some ('@' :: username) else none

/-- Modelled from the spec: the shared entity-resolution helper as the spec
words it — a numeric `-100…` target is resolved directly by id, any other
target by bare name first, falling back to the `@`-prefixed form only if the
bare form does not resolve. Stated to compare claim C7 against the actual
per-call-site resolution functions above. -/
def resolve_entity_spec (resolves : List Char → Bool) (cid : List Char) :
    Option (List Char) :=
  if ("-100".toList).isPrefixOf cid then
    if resolves cid then some cid else none
  else if resolves cid then some cid
  else if resolves ('@' :: cid) then some ('@' :: cid) else none

/-- The step handlers dispatched by `message_handler` (`bot.py` lines
1661-1679), one per conversation step name. -/
inductive StepHandler where
  | phoneStep
  | otpStep
  | passwordStep
  | countingStep
  | inviteLinkStep
  | messageLinkStep
  | removePhoneStep
  | sudoUserIdStep
  | removeSudoUserIdStep
deriving DecidableEq

/-- The literal prefix of the `re.match(r'http://example\.com/', ...)` guard
in `message_handler` (`bot.py` line 1658). -/
def exampleComPrefix : List Char := "http://example.com/".toList

/-- The routing decision of `message_handler` (`bot.py` lines 1648-1679):
messages from operators with no conversation state are dropped; messages whose
text begins with `http://example.com/` are dropped; otherwise the handler for
the state's current step (if any) is chosen. -/
def message_route (states : Nat → Option ConvState) (uid : Nat) (text : List Char) :
    Option StepHandler :=
  match states uid with
  | none => none
  | some s =>
    if exampleComPrefix.isPrefixOf text then none
    else if s.step = "phone" then some .phoneStep
    else if s.step = "otp" then some .otpStep
    else if s.step = "password" then some .passwordStep
    else if s.step = "counting" then some .countingStep
    else if s.step = "invite_link" then some .inviteLinkStep
    else if s.step = "message_link" then some .messageLinkStep
    else if s.step = "remove_phone" then some .removePhoneStep
    else if s.step = "sudo_user_id" then some .sudoUserIdStep
    else if s.step = "remove_sudo_user_id" then some .removeSudoUserIdStep
    else none

/-- One `message_handler` turn as a transition on the conversation-state map:
when routing selects no handler the map is untouched; otherwise the chosen
step handler (`apply` gives each handler's semantics) runs. -/
def message_handler_step
    (apply : StepHandler → (Nat → Option ConvState) → (Nat → Option ConvState))
    (states : Nat → Option ConvState) (uid : Nat) (text : List Char) :
    Nat → Option ConvState :=
  match message_route states uid text with
  | none => states
  | some h => apply h states

/-- The per-account outcome of one processed account in the shared batch
loop: a success reply when the attempt succeeded, a failure reply otherwise. -/
def outcomeOf (attempt : List Char → Bool) (phone : List Char) : Outcome :=
  if attempt phone then Outcome.ok phone else Outcome.fail phone

/-- Whether a streamed outcome is a per-account success reply. -/
def isSuccess : Outcome → Bool
  | Outcome.ok _ => true
  | _ => false

/-- Whether a streamed outcome is a per-account failure reply. -/
def isFailure : Outcome → Bool
  | Outcome.fail _ => true
  | _ => false

end Bot

namespace Bot

/-- Character-level fact: the whitespace characters are not digits. -/
theorem whitespace_not_digit (c : Char) (h : c.isWhitespace = true) : c.isDigit = false := by
  simp only [Char.isWhitespace, Bool.or_eq_true, decide_eq_true_eq] at h
  rcases h with ((h | h) | h) | h <;> (subst h; decide)

/-- Character-level fact: digits are not whitespace. -/
theorem digit_not_whitespace (c : Char) (h : c.isDigit = true) : c.isWhitespace = false := by
  by_contra hw
  rw [Bool.not_eq_false] at hw
  rw [whitespace_not_digit c hw] at h
  exact Bool.false_ne_true h

/-- Dropping a prefix of `q`-elements does not change a `p`-filter when `q`
elements never satisfy `p`. -/
theorem filter_dropWhile_eq (p q : Char → Bool) (hpq : ∀ c, q c = true → p c = false) :
    ∀ l : List Char, (l.dropWhile q).filter p = l.filter p := by
  intro l
  induction l with
  | nil => rfl
  | cons c cs ih =>
    by_cases hq : q c = true
    · rw [List.dropWhile_cons_of_pos hq, ih, List.filter_cons_of_neg]
      simp [hpq c hq]
    · rw [List.dropWhile_cons_of_neg hq]

/-- Stripping whitespace from both ends does not change the digit content. -/
theorem filter_isDigit_pyStrip (l : List Char) :
    (pyStrip l).filter Char.isDigit = l.filter Char.isDigit := by
  unfold pyStrip
  rw [List.filter_reverse,
    filter_dropWhile_eq Char.isDigit Char.isWhitespace whitespace_not_digit,
    List.filter_reverse, List.reverse_reverse,
    filter_dropWhile_eq Char.isDigit Char.isWhitespace whitespace_not_digit]

/-- A list none of whose elements satisfies `q` is unchanged by `dropWhile q`. -/
theorem dropWhile_eq_self_of_none (q : Char → Bool) :
    ∀ l : List Char, (∀ c ∈ l, q c = false) → l.dropWhile q = l := by
  intro l h
  cases l with
  | nil => rfl
  | cons c cs =>
    exact List.dropWhile_cons_of_neg (by simp [h c (List.mem_cons_self c cs)])

/-- A list none of whose elements is whitespace is unchanged by `pyStrip`. -/
theorem pyStrip_eq_self_of_no_ws (l : List Char) (h : ∀ c ∈ l, c.isWhitespace = false) :
    pyStrip l = l := by
  unfold pyStrip
  rw [dropWhile_eq_self_of_none _ l h,
    dropWhile_eq_self_of_none _ l.reverse (fun c hc => h c (List.mem_reverse.mp hc)),
    List.reverse_reverse]

/-- Normalization always yields a plus sign followed by exactly the digit
characters of the input. -/
theorem normalize_phone_eq (s : List Char) :
    normalize_phone s = '+' :: s.filter Char.isDigit := by
  simp only [normalize_phone]
  by_cases h : (pyStrip s).head? = some '+'
  · rw [if_pos h]
    obtain ⟨t, ht⟩ : ∃ t, pyStrip s = '+' :: t := by
      cases hp : pyStrip s with
      | nil => rw [hp] at h; exact absurd h (by simp)
      | cons c cs =>
        rw [hp] at h
        simp only [List.head?_cons, Option.some.injEq] at h
        exact ⟨cs, by rw [h]⟩
    have hst : s.filter Char.isDigit = t.filter Char.isDigit := by
      rw [← filter_isDigit_pyStrip s, ht, List.filter_cons_of_neg (by decide)]
    rw [ht, List.tail_cons, hst]
  · rw [if_neg h, filter_isDigit_pyStrip]

/-- C9: for every input, `normalize_phone` returns a plus sign followed by
exactly the digit characters of the input (dropping a leading plus and every
non-digit character), and it is idempotent. -/
theorem c9_normalize_phone_shape_and_idempotent (s : List Char) :
    normalize_phone s = '+' :: s.filter Char.isDigit ∧
    normalize_phone (normalize_phone s) = normalize_phone s := by
  refine ⟨normalize_phone_eq s, ?_⟩
  rw [normalize_phone_eq s]
  have hD : ∀ c ∈ s.filter Char.isDigit, c.isDigit = true := by
    intro c hc
    exact (List.mem_filter.mp hc).2
  have hnws : ∀ c ∈ ('+' :: s.filter Char.isDigit), c.isWhitespace = false := by
    intro c hc
    rcases List.mem_cons.mp hc with h | h
    · subst h; decide
    · exact digit_not_whitespace c (hD c h)
  simp only [normalize_phone]
  rw [pyStrip_eq_self_of_no_ws _ hnws]
  rw [if_pos (show ('+' :: s.filter Char.isDigit).head? = some '+' from rfl)]
  rw [List.tail_cons, List.filter_eq_self.mpr hD]

/-- C2 counterexample: at an account whose flood clock already holds
wait-until 100, a rate-limit signal at now = 10 with 5 seconds overwrites the
entry with 15 — strictly smaller than the previous value — while the spec's
max-refresh would have kept 100. -/
theorem c2_rate_limit_overwrite_counterexample :
    registerRateLimited (fun p => if p = "+111".toList then some 100 else none)
        ("+111".toList) 10 5 ("+111".toList) = some 15 ∧
    (15 : ℚ) < 100 ∧
    registerRateLimitedSpec (fun p => if p = "+111".toList then some 100 else none)
        ("+111".toList) 10 5 ("+111".toList) = some 100 := by
  refine ⟨?_, by norm_num, ?_⟩
  · simp only [registerRateLimited, if_pos rfl]
    norm_num
  · simp only [registerRateLimitedSpec, if_pos rfl]
    norm_num

/-- C2 amended: registering a rate-limit signal of `seconds` for an account
unconditionally overwrites that account's wait-until with now + seconds
(which can decrease it), leaving every other account's entry unchanged. -/
theorem c2_register_rate_limited_overwrites (fw : FloodClock) (phone p : List Char)
    (now seconds : ℚ) :
    registerRateLimited fw phone now seconds phone = some (now + seconds) ∧
    (p ≠ phone → registerRateLimited fw phone now seconds p = fw p) := by
  constructor
  · simp [registerRateLimited]
  · intro hp
    simp [registerRateLimited, hp]

/-- Witness for the amended C2 theorem at a concrete flood clock. -/
theorem c2_register_rate_limited_overwrites_witness :
    registerRateLimited (fun _ => none) ("+1".toList) 3 4 ("+1".toList) = some (3 + 4) ∧
    registerRateLimited (fun _ => none) ("+1".toList) 3 4 ("x".toList)
      = (fun _ => (none : Option ℚ)) ("x".toList) :=
  ⟨(c2_register_rate_limited_overwrites (fun _ => none) ("+1".toList) ("x".toList) 3 4).1,
   (c2_register_rate_limited_overwrites (fun _ => none) ("+1".toList) ("x".toList) 3 4).2
     (by decide)⟩

/-- C3: for an account with a registered wait-until `w`, `respect_flood_limit`
resumes its caller no earlier than `w`, and resumes exactly at
max(now, w) plus the per-action-kind post-call delay when a positive one is
given — so the remote call issued after it never happens before `w`. -/
theorem c3_respect_flood_limit_waits (fw : FloodClock) (phone : List Char)
    (now delay w : ℚ) (hw : fw phone = some w) :
    w ≤ respect_flood_limit fw phone now delay ∧
    respect_flood_limit fw phone now delay
      = max now w + (if 0 < delay then delay else 0) := by
  have h2 : respect_flood_limit fw phone now delay
      = max now w + (if 0 < delay then delay else 0) := by
    simp only [respect_flood_limit, hw]
    by_cases hlt : now < w
    · rw [if_pos hlt]
      have harith : now + (w - now) = w := by ring
      rw [harith, max_eq_right (le_of_lt hlt)]
      split <;> simp
    · rw [if_neg hlt, max_eq_left (le_of_not_lt hlt)]
      split <;> simp
  refine ⟨?_, h2⟩
  rw [h2]
  have h3 : w ≤ max now w := le_max_right now w
  have h4 : (0 : ℚ) ≤ if 0 < delay then delay else 0 := by
    split
    · linarith
    · exact le_refl 0
  linarith

/-- Witness for the C3 theorem: a concrete account with wait-until 50,
consulted at time 10 with a post-call delay of 2. -/
theorem c3_respect_flood_limit_waits_witness :
    (50 : ℚ) ≤ respect_flood_limit (fun _ => some 50) ("+1".toList) 10 2 ∧
    respect_flood_limit (fun _ => some 50) ("+1".toList) 10 2
      = max 10 50 + (if (0 : ℚ) < 2 then 2 else 0) :=
  c3_respect_flood_limit_waits (fun _ => some 50) ("+1".toList) 10 2 50 rfl

/-- C8: a phone submission whose normalized form fails the `+<7-15 digits>`
pattern is rejected with a reprompt, the operator's conversation state is left
exactly in the phone-awaiting step, and no account is added to the registry. -/
theorem c8_invalid_phone_rejected (s : ConvState) (clients : List (List Char))
    (text : List Char) (netOk : Bool)
    (hstep : s.step = "phone")
    (hbad : validPhoneFormat (normalize_phone text) = false) :
    receive_phone (some s) clients text netOk
      = (PhoneStepResult.invalidFormat, some s, clients) := by
  simp [receive_phone, hstep, hbad]

/-- Witness for the C8 theorem: the scenario input `"123"` (too short) against
a phone-awaiting state and an empty registry. -/
theorem c8_invalid_phone_rejected_witness :
    receive_phone (some ⟨"addaccount", "phone", none, none⟩) [] ("123".toList) true
      = (PhoneStepResult.invalidFormat, some ⟨"addaccount", "phone", none, none⟩, []) :=
  c8_invalid_phone_rejected ⟨"addaccount", "phone", none, none⟩ [] ("123".toList) true
    rfl (by decide)

/-- C10: for an operator with an active conversation state in any step, a
message whose text begins with `http://example.com/` is ignored by the
router — no step handler is selected (hence no reply), and the
conversation-state map is left unchanged. -/
theorem c10_example_com_prefix_ignored
    (apply : StepHandler → (Nat → Option ConvState) → (Nat → Option ConvState))
    (states : Nat → Option ConvState) (uid : Nat) (text : List Char) (s : ConvState)
    (hactive : states uid = some s)
    (hpre : exampleComPrefix.isPrefixOf text = true) :
    message_route states uid text = none ∧
    message_handler_step apply states uid text = states := by
  have hr : message_route states uid text = none := by
    simp [message_route, hactive, hpre]
  refine ⟨hr, ?_⟩
  simp [message_handler_step, hr]

/-- Witness for the C10 theorem: a concrete operator in the phone step and a
message starting with the ignored prefix, against a state-mutating handler
semantics. -/
theorem c10_example_com_prefix_ignored_witness :
    message_route (fun u => if u = 7 then some ⟨"addaccount", "phone", none, none⟩ else none)
        7 ("http://example.com/abc".toList) = none ∧
    message_handler_step (fun _ _ => fun _ => none)
        (fun u => if u = 7 then some ⟨"addaccount", "phone", none, none⟩ else none)
        7 ("http://example.com/abc".toList)
      = (fun u => if u = 7 then some ⟨"addaccount", "phone", none, none⟩ else none) :=
  c10_example_com_prefix_ignored (fun _ _ => fun _ => none)
    (fun u => if u = 7 then some ⟨"addaccount", "phone", none, none⟩ else none)
    7 ("http://example.com/abc".toList) ⟨"addaccount", "phone", none, none⟩
    (by decide) (by decide)

/-- An in-bounds `getD` is a member of the list. -/
theorem list_getD_mem {α : Type} (l : List α) (n : Nat) (d : α) (h : n < l.length) :
    l.getD n d ∈ l := by
  rw [List.getD_eq_getElem?_getD, List.getElem?_eq_getElem h, Option.getD_some]
  exact List.getElem_mem h

/-- The unused-glyph list is empty exactly when the used-set covers the whole
alphabet (and, it being contained in the alphabet, equals it). -/
theorem unused_emojis_eq_nil_iff (emojis : List String) (used : Finset String)
    (hsub : used ⊆ emojis.toFinset) :
    unused_emojis emojis used = [] ↔ used = emojis.toFinset := by
  constructor
  · intro h
    apply Finset.Subset.antisymm hsub
    intro e he
    rw [List.mem_toFinset] at he
    by_contra hnot
    have hmem : e ∈ unused_emojis emojis used := by
      rw [unused_emojis, List.mem_filter]
      exact ⟨he, by simp [hnot]⟩
    rw [h] at hmem
    exact absurd hmem (List.not_mem_nil e)
  · intro h
    rw [unused_emojis, List.filter_eq_nil_iff]
    intro e he
    simp [h, List.mem_toFinset, he]

/-- C1: with a nonempty alphabet and a used-set contained in it, the glyph
picked for a (target, account) pair is never one already in the pair's
used-set unless the used-set equals the full alphabet, in which case the
used-set is cleared and the pick is made from the full alphabet; a successful
reaction commits the picked glyph into the (possibly cleared) used-set, and a
failed reaction leaves it as the pick left it. -/
theorem c1_reaction_ledger_rotation (emojis : List String) (used : Finset String)
    (idx : Nat) (hne : emojis ≠ []) (hsub : used ⊆ emojis.toFinset) :
    (used ≠ emojis.toFinset →
      (pick_emoji emojis used idx).1 ∉ used ∧ (pick_emoji emojis used idx).2 = used) ∧
    (used = emojis.toFinset →
      (pick_emoji emojis used idx).2 = ∅ ∧ (pick_emoji emojis used idx).1 ∈ emojis) ∧
    (react_step emojis used idx true).2
      = insert (pick_emoji emojis used idx).1 (pick_emoji emojis used idx).2 ∧
    (react_step emojis used idx false).2 = (pick_emoji emojis used idx).2 := by
  refine ⟨?_, ?_, by simp [react_step], by simp [react_step]⟩
  · intro hne2
    have hu : unused_emojis emojis used ≠ [] :=
      fun h => hne2 ((unused_emojis_eq_nil_iff emojis used hsub).mp h)
    have hisEmpty : (unused_emojis emojis used).isEmpty = false :=
      List.isEmpty_eq_false.mpr hu
    have hpick : pick_emoji emojis used idx
        = ((unused_emojis emojis used).getD
            (idx % (unused_emojis emojis used).length) "", used) := by
      simp [pick_emoji, hisEmpty]
    have hlen : 0 < (unused_emojis emojis used).length := List.length_pos.mpr hu
    have hmem : (unused_emojis emojis used).getD
        (idx % (unused_emojis emojis used).length) "" ∈ unused_emojis emojis used :=
      list_getD_mem _ _ _ (Nat.mod_lt _ hlen)
    have hnotin := (List.mem_filter.mp hmem).2
    simp only [decide_eq_true_eq] at hnotin
    rw [hpick]
    exact ⟨hnotin, rfl⟩
  · intro heq
    have hnil : unused_emojis emojis used = [] :=
      (unused_emojis_eq_nil_iff emojis used hsub).mpr heq
    have hpick : pick_emoji emojis used idx
        = (emojis.getD (idx % emojis.length) "", (∅ : Finset String)) := by
      simp [pick_emoji, hnil]
    rw [hpick]
    refine ⟨rfl, ?_⟩
    exact list_getD_mem _ _ _ (Nat.mod_lt _ (List.length_pos.mpr hne))

/-- Witness for the C1 theorem: alphabet `["a", "b"]`, used-set `{"a"}`,
pick index 0. -/
theorem c1_reaction_ledger_rotation_witness :
    ((({"a"} : Finset String) ≠ (["a", "b"] : List String).toFinset →
      (pick_emoji ["a", "b"] {"a"} 0).1 ∉ ({"a"} : Finset String) ∧
      (pick_emoji ["a", "b"] {"a"} 0).2 = {"a"}) ∧
    (({"a"} : Finset String) = (["a", "b"] : List String).toFinset →
      (pick_emoji ["a", "b"] {"a"} 0).2 = ∅ ∧
      (pick_emoji ["a", "b"] {"a"} 0).1 ∈ (["a", "b"] : List String)) ∧
    (react_step ["a", "b"] {"a"} 0 true).2
      = insert (pick_emoji ["a", "b"] {"a"} 0).1 (pick_emoji ["a", "b"] {"a"} 0).2 ∧
    (react_step ["a", "b"] {"a"} 0 false).2 = (pick_emoji ["a", "b"] {"a"} 0).2) :=
  c1_reaction_ledger_rotation ["a", "b"] {"a"} 0 (by decide) (by decide)

/-- Every account of the batch contributes exactly one success or failure
outcome or is left in the unprocessed remainder. -/
theorem runBatchAux_count (attempt : List Char → Bool) (cancel : Nat → Bool) :
    ∀ (accounts : List (List Char)) (i : Nat),
      (runBatchAux attempt cancel i accounts).1.countP (fun o => isSuccess o)
        + (runBatchAux attempt cancel i accounts).1.countP (fun o => isFailure o)
        + (runBatchAux attempt cancel i accounts).2.length
        = accounts.length := by
  intro accounts
  induction accounts with
  | nil => intro i; simp [runBatchAux]
  | cons phone rest ih =>
    intro i
    by_cases hc : cancel i = true
    · simp [runBatchAux, hc, List.countP_cons, isSuccess, isFailure]
    · have ih1 := ih (i + 1)
      simp only [isSuccess, isFailure] at ih1
      by_cases ha : attempt phone = true
      · simp only [runBatchAux, if_neg hc, if_pos ha,
          List.countP_cons, List.length_cons, isSuccess, isFailure,
          Bool.false_eq_true, if_true, if_false]
        omega
      · simp only [runBatchAux, if_neg hc, if_neg ha,
          List.countP_cons, List.length_cons, isSuccess, isFailure,
          Bool.false_eq_true, if_true, if_false]
        omega

/-- C5: for every batch invocation of the join and view executors, the number
of success outcomes plus the number of failure outcomes plus the number of
selected accounts left unprocessed by a cancellation equals the number of
selected accounts. -/
theorem c5_outcome_counts_partition (join_ok view_ok : List Char → Bool)
    (cancel : Nat → Bool) (registry : List (List Char)) (count : Nat) :
    (process_join join_ok cancel registry count).1.countP (fun o => isSuccess o)
      + (process_join join_ok cancel registry count).1.countP (fun o => isFailure o)
      + (process_join join_ok cancel registry count).2.length
      = (selectAccounts registry count).length ∧
    (process_view view_ok cancel registry count).1.countP (fun o => isSuccess o)
      + (process_view view_ok cancel registry count).1.countP (fun o => isFailure o)
      + (process_view view_ok cancel registry count).2.length
      = (selectAccounts registry count).length :=
  ⟨runBatchAux_count join_ok cancel (selectAccounts registry count) 0,
   runBatchAux_count view_ok cancel (selectAccounts registry count) 0⟩

/-- A run of the shared batch loop that never sees the cancellation flag
processes every selected account in order. -/
theorem runBatchAux_no_cancel (attempt : List Char → Bool) :
    ∀ (l : List (List Char)) (i : Nat),
      runBatchAux attempt (fun _ => false) i l = (l.map (outcomeOf attempt), []) := by
  intro l
  induction l with
  | nil => intro i; rfl
  | cons phone rest ih =>
    intro i
    simp only [runBatchAux, Bool.false_eq_true, if_false, ih (i + 1), List.map_cons]
    rfl

/-- C6: with a registry of at least `count` accounts, the selection is exactly
the first `count` registry entries in insertion order; an uncancelled join
batch produces precisely their outcomes in that order and leaves nothing
unprocessed; and a mega-variant command selects the full pool while skipping
the count-collection step. -/
theorem c6_first_n_selection (join_ok : List Char → Bool)
    (registry : List (List Char)) (count : Nat) (command : String)
    (hcount : count ≤ registry.length)
    (hmega : command = "mega_join" ∨ command = "mega_leave"
      ∨ command = "mega_react" ∨ command = "mega_view") :
    (selectAccounts registry count).length = count ∧
    (∀ i, i < count → (selectAccounts registry count)[i]? = registry[i]?) ∧
    (process_join join_ok (fun _ => false) registry count).1
      = (selectAccounts registry count).map (outcomeOf join_ok) ∧
    (process_join join_ok (fun _ => false) registry count).2 = [] ∧
    selectAccounts registry
        ((start_link_only_command command registry.length).count.getD 0) = registry ∧
    (start_link_only_command command registry.length).step ≠ "counting" := by
  refine ⟨?_, ?_, ?_, ?_, ?_, ?_⟩
  · rw [selectAccounts, List.length_take]
    omega
  · intro i hi
    rw [selectAccounts, List.getElem?_take_of_lt hi]
  · rw [process_join, runBatchAux_no_cancel]
  · rw [process_join, runBatchAux_no_cancel]
  · rw [start_link_only_command, selectAccounts]
    simp [List.take_length]
  · rw [start_link_only_command]
    rcases hmega with h | h | h | h <;> (subst h; simp)

/-- Witness for the C6 theorem: a pool of three accounts, a join with
count 2, and the mega-join command. -/
theorem c6_first_n_selection_witness :
    (selectAccounts ["+1".toList, "+2".toList, "+3".toList] 2).length = 2 ∧
    (∀ i, i < 2 → (selectAccounts ["+1".toList, "+2".toList, "+3".toList] 2)[i]?
      = (["+1".toList, "+2".toList, "+3".toList] : List (List Char))[i]?) ∧
    (process_join (fun _ => true) (fun _ => false)
        ["+1".toList, "+2".toList, "+3".toList] 2).1
      = (selectAccounts ["+1".toList, "+2".toList, "+3".toList] 2).map
          (outcomeOf (fun _ => true)) ∧
    (process_join (fun _ => true) (fun _ => false)
        ["+1".toList, "+2".toList, "+3".toList] 2).2 = [] ∧
    selectAccounts ["+1".toList, "+2".toList, "+3".toList]
        ((start_link_only_command "mega_join"
          (["+1".toList, "+2".toList, "+3".toList] : List (List Char)).length).count.getD 0)
      = ["+1".toList, "+2".toList, "+3".toList] ∧
    (start_link_only_command "mega_join"
        (["+1".toList, "+2".toList, "+3".toList] : List (List Char)).length).step
      ≠ "counting" :=
  c6_first_n_selection (fun _ => true) ["+1".toList, "+2".toList, "+3".toList] 2
    "mega_join" (by decide) (Or.inl rfl)

/-- A run of the shared batch loop that first observes the cancellation flag
at boundary `j` keeps the outcomes of the first `j` accounts intact, appends
the cancellation outcome, and leaves the remaining accounts unprocessed. -/
theorem runBatchAux_cancel_at (attempt : List Char → Bool) (cancel : Nat → Bool) :
    ∀ (l : List (List Char)) (i j : Nat),
      (∀ k, k < j → cancel (i + k) = false) → cancel (i + j) = true →
      j < l.length →
      runBatchAux attempt cancel i l
        = ((l.take j).map (outcomeOf attempt) ++ [Outcome.cancelled], l.drop j) := by
  intro l
  induction l with
  | nil => intro i j _ _ hlt; simp at hlt
  | cons phone rest ih =>
    intro i j hbefore hat hlt
    cases j with
    | zero =>
      have hc : cancel i = true := by simpa using hat
      simp [runBatchAux, hc]
    | succ j =>
      have hc : cancel i = false := by simpa using hbefore 0 (Nat.succ_pos j)
      have hb2 : ∀ k, k < j → cancel (i + 1 + k) = false := by
        intro k hk
        have h := hbefore (k + 1) (by omega)
        have harith : i + (k + 1) = i + 1 + k := by omega
        rwa [harith] at h
      have ha2 : cancel (i + 1 + j) = true := by
        have harith : i + 1 + j = i + (j + 1) := by omega
        rw [harith]; exact hat
      have hl2 : j < rest.length := by
        have := Nat.lt_of_succ_lt_succ (by simpa using hlt)
        exact this
      simp only [runBatchAux, hc, Bool.false_eq_true, if_false]
      rw [ih (i + 1) j hb2 ha2 hl2]
      simp [List.take_succ_cons, List.drop_succ_cons, outcomeOf]

/-- With the cancellation flag never set, the starting boundary index does not
affect a react batch run. -/
theorem process_react_aux_start_irrelevant (send_ok : List Char → String → Bool)
    (pickIdx : List Char → Nat) (emojis : List String) :
    ∀ (l : List (List Char)) (i i2 : Nat) (hist : List Char → Finset String),
      process_react_aux send_ok pickIdx emojis (fun _ => false) i l hist
        = process_react_aux send_ok pickIdx emojis (fun _ => false) i2 l hist := by
  intro l
  induction l with
  | nil => intro i i2 hist; rfl
  | cons phone rest ih =>
    intro i i2 hist
    simp only [process_react_aux, Bool.false_eq_true, if_false]
    rw [ih (i + 1) (i2 + 1)]

/-- A react batch run that first observes the cancellation flag at boundary
`j` behaves as an uncancelled run of the first `j` accounts followed by the
cancellation outcome; the remaining accounts are unprocessed and the ledger
holds only the first `j` accounts' updates. -/
theorem process_react_aux_cancel_at (send_ok : List Char → String → Bool)
    (pickIdx : List Char → Nat) (emojis : List String) (cancel : Nat → Bool) :
    ∀ (l : List (List Char)) (i j : Nat) (hist : List Char → Finset String),
      (∀ k, k < j → cancel (i + k) = false) → cancel (i + j) = true →
      j < l.length →
      process_react_aux send_ok pickIdx emojis cancel i l hist
        = ((process_react_aux send_ok pickIdx emojis (fun _ => false) 0
              (l.take j) hist).1 ++ [Outcome.cancelled],
           l.drop j,
           (process_react_aux send_ok pickIdx emojis (fun _ => false) 0
              (l.take j) hist).2.2) := by
  intro l
  induction l with
  | nil => intro i j hist _ _ hlt; simp at hlt
  | cons phone rest ih =>
    intro i j hist hbefore hat hlt
    cases j with
    | zero =>
      have hc : cancel i = true := by simpa using hat
      simp [process_react_aux, hc]
    | succ j =>
      have hc : cancel i = false := by simpa using hbefore 0 (Nat.succ_pos j)
      have hb2 : ∀ k, k < j → cancel (i + 1 + k) = false := by
        intro k hk
        have h := hbefore (k + 1) (by omega)
        have harith : i + (k + 1) = i + 1 + k := by omega
        rwa [harith] at h
      have ha2 : cancel (i + 1 + j) = true := by
        have harith : i + 1 + j = i + (j + 1) := by omega
        rw [harith]; exact hat
      have hl2 : j < rest.length := Nat.lt_of_succ_lt_succ (by simpa using hlt)
      simp only [process_react_aux, hc, Bool.false_eq_true, if_false,
        List.take_succ_cons, List.drop_succ_cons]
      rw [ih (i + 1) j _ hb2 ha2 hl2]
      rw [process_react_aux_start_irrelevant send_ok pickIdx emojis (rest.take j) 0 1]
      simp

/-- C4: when the operator's cancellation token is first observed set at
account boundary `j` of the selected list, the join and react executors
produce exactly the outcomes of the first `j` accounts (as an uncancelled run
would), report the cancellation outcome after them, process no account at or
after the cancellation point, and (for react) commit no ledger update beyond
the first `j` accounts. -/
theorem c4_cancellation_stops_batch (join_ok : List Char → Bool)
    (send_ok : List Char → String → Bool) (pickIdx : List Char → Nat)
    (emojis : List String) (cancel : Nat → Bool) (registry : List (List Char))
    (count j : Nat) (hist : List Char → Finset String)
    (hbefore : ∀ k, k < j → cancel k = false) (hat : cancel j = true)
    (hlt : j < (selectAccounts registry count).length) :
    process_join join_ok cancel registry count
      = (((selectAccounts registry count).take j).map (outcomeOf join_ok)
          ++ [Outcome.cancelled],
         (selectAccounts registry count).drop j) ∧
    process_react send_ok pickIdx emojis cancel registry count hist
      = ((process_react_aux send_ok pickIdx emojis (fun _ => false) 0
            ((selectAccounts registry count).take j) hist).1 ++ [Outcome.cancelled],
         (selectAccounts registry count).drop j,
         (process_react_aux send_ok pickIdx emojis (fun _ => false) 0
            ((selectAccounts registry count).take j) hist).2.2) := by
  constructor
  · rw [process_join]
    exact runBatchAux_cancel_at join_ok cancel (selectAccounts registry count) 0 j
      (by simpa using hbefore) (by simpa using hat) hlt
  · rw [process_react]
    exact process_react_aux_cancel_at send_ok pickIdx emojis cancel
      (selectAccounts registry count) 0 j hist
      (by simpa using hbefore) (by simpa using hat) hlt

/-- Witness for the C4 theorem: three accounts, the flag raised from boundary
1 on, so the first account's outcome is kept and the last two are left
unprocessed. -/
theorem c4_cancellation_stops_batch_witness :
    (∀ k, k < 1 → (fun n => decide (1 ≤ n)) k = false) ∧
    process_join (fun _ => true) (fun n => decide (1 ≤ n))
        ["+1".toList, "+2".toList, "+3".toList] 3
      = (((selectAccounts ["+1".toList, "+2".toList, "+3".toList] 3).take 1).map
            (outcomeOf (fun _ => true)) ++ [Outcome.cancelled],
         (selectAccounts ["+1".toList, "+2".toList, "+3".toList] 3).drop 1) ∧
    process_react (fun _ _ => true) (fun _ => 0) ["a"] (fun n => decide (1 ≤ n))
        ["+1".toList, "+2".toList, "+3".toList] 3 (fun _ => ∅)
      = ((process_react_aux (fun _ _ => true) (fun _ => 0) ["a"] (fun _ => false) 0
            ((selectAccounts ["+1".toList, "+2".toList, "+3".toList] 3).take 1)
            (fun _ => ∅)).1 ++ [Outcome.cancelled],
         (selectAccounts ["+1".toList, "+2".toList, "+3".toList] 3).drop 1,
         (process_react_aux (fun _ _ => true) (fun _ => 0) ["a"] (fun _ => false) 0
            ((selectAccounts ["+1".toList, "+2".toList, "+3".toList] 3).take 1)
            (fun _ => ∅)).2.2) := by
  have hbefore : ∀ k, k < 1 → (fun n => decide (1 ≤ n)) k = false := by
    intro k hk
    have hk0 : k = 0 := Nat.lt_one_iff.mp hk
    subst hk0
    rfl
  refine ⟨hbefore, ?_, ?_⟩
  · exact (c4_cancellation_stops_batch (fun _ => true) (fun _ _ => true) (fun _ => 0)
      ["a"] (fun n => decide (1 ≤ n)) ["+1".toList, "+2".toList, "+3".toList] 3 1
      (fun _ => ∅) hbefore (by decide) (by decide)).1
  · exact (c4_cancellation_stops_batch (fun _ => true) (fun _ _ => true) (fun _ => 0)
      ["a"] (fun n => decide (1 ≤ n)) ["+1".toList, "+2".toList, "+3".toList] 3 1
      (fun _ => ∅) hbefore (by decide) (by decide)).2

/-- C7 counterexample: with a resolver that accepts the bare name `chan` but
not `@chan`, view resolution fails while the bare-name-first resolution the
claim describes (and which react actually performs, matching the spec-modelled
shared helper) succeeds — so view does not try the bare form first. -/
theorem c7_view_resolution_counterexample :
    resolve_view_entity (fun s => decide (s = "chan".toList)) ("chan".toList) = none ∧
    resolve_reaction_entity (fun s => decide (s = "chan".toList)) ("chan".toList)
      = some ("chan".toList) ∧
    resolve_entity_spec (fun s => decide (s = "chan".toList)) ("chan".toList)
      = some ("chan".toList) := by
  refine ⟨?_, ?_, ?_⟩ <;> decide

/-- C7 amended: a `-100…` numeric target is resolved directly by id in react
and view; for any other target, react resolves the bare name first with the
`@`-prefixed form only as fallback, and public join does the same for the link
username, while view resolves the `@`-prefixed form directly (using the
identifier unchanged when it already starts with `@`), never attempting the
bare form first. -/
theorem c7_entity_resolution (resolves : List Char → Bool) (cid : List Char) :
    (("-100".toList).isPrefixOf cid = true →
      resolve_reaction_entity resolves cid
        = (if resolves cid then some cid else none) ∧
      resolve_view_entity resolves cid
        = (if resolves cid then some cid else none)) ∧
    (("-100".toList).isPrefixOf cid = false →
      (resolves cid = true → resolve_reaction_entity resolves cid = some cid) ∧
      (resolves cid = false →
        resolve_reaction_entity resolves cid
          = (if resolves ('@' :: cid) then some ('@' :: cid) else none)) ∧
      (("@".toList).isPrefixOf cid = false →
        resolve_view_entity resolves cid
          = (if resolves ('@' :: cid) then some ('@' :: cid) else none)) ∧
      (("@".toList).isPrefixOf cid = true →
        resolve_view_entity resolves cid
          = (if resolves cid then some cid else none))) ∧
    (resolves cid = true → resolve_join_entity resolves cid = some cid) ∧
    (resolves cid = false →
      resolve_join_entity resolves cid
        = (if resolves ('@' :: cid) then some ('@' :: cid) else none)) := by
  refine ⟨?_, ?_, ?_, ?_⟩
  · intro hpre
    constructor
    · unfold resolve_reaction_entity
      rw [if_pos hpre]
    · unfold resolve_view_entity
      rw [if_pos hpre]
  · intro hpre
    have hpre2 : ¬ (("-100".toList).isPrefixOf cid = true) := by
      rw [hpre]; exact Bool.false_ne_true
    refine ⟨?_, ?_, ?_, ?_⟩
    · intro hr
      unfold resolve_reaction_entity
      rw [if_neg hpre2, if_pos hr]
    · intro hr
      have hr2 : ¬ (resolves cid = true) := by
        rw [hr]; exact Bool.false_ne_true
      unfold resolve_reaction_entity
      rw [if_neg hpre2, if_neg hr2]
    · intro hat
      have hat2 : ¬ (("@".toList).isPrefixOf cid = true) := by
        rw [hat]; exact Bool.false_ne_true
      unfold resolve_view_entity
      rw [if_neg hpre2]
      simp only [if_neg hat2]
    · intro hat
      unfold resolve_view_entity
      rw [if_neg hpre2]
      simp only [if_pos hat]
  · intro hr
    unfold resolve_join_entity
    rw [if_pos hr]
  · intro hr
    have hr2 : ¬ (resolves cid = true) := by
      rw [hr]; exact Bool.false_ne_true
    unfold resolve_join_entity
    rw [if_neg hr2]

/-- Witness for the amended C7 theorem: a resolver accepting only `@chan`,
applied to the bare target `chan`. -/
theorem c7_entity_resolution_witness :
    resolve_reaction_entity (fun s => decide (s = '@' :: "chan".toList)) ("chan".toList)
      = some ('@' :: "chan".toList) ∧
    resolve_view_entity (fun s => decide (s = '@' :: "chan".toList)) ("chan".toList)
      = some ('@' :: "chan".toList) ∧
    resolve_join_entity (fun s => decide (s = '@' :: "chan".toList)) ("chan".toList)
      = some ('@' :: "chan".toList) := by
  have h := c7_entity_resolution (fun s => decide (s = '@' :: "chan".toList)) ("chan".toList)
  refine ⟨?_, ?_, ?_⟩
  · have h1 := (h.2.1 (by decide)).2.1 (by decide)
    simpa using h1
  · have h2 := (h.2.1 (by decide)).2.2.1 (by decide)
    simpa using h2
  · have h3 := h.2.2.2 (by decide)
    simpa using h3

end Bot
